import Mathlib

/-!
Shallow embedding of the memoryparasite game core (physics, collision,
audio mixer, boss/enemy behaviour) and proofs about it.

Conventions:
* Python floats are modelled as exact rationals (`ℚ`) where the source
  performs only field arithmetic and comparisons, and as real numbers (`ℝ`)
  where the source takes square roots or uses trigonometry
  (`Vec2.length`, `normalized`, `atan2`).
* Mutating methods become functions returning the updated record.
* Rendering, particle emission and audio triggering are output-only side
  effects with no influence on simulation state; they are dropped.
* Randomness (`random.random`, `random.uniform`, `random.choice`) is
  modelled by an explicit oracle record supplying one value per call site;
  every concrete execution of the source corresponds to some oracle.
-/

/-- Engine/physics.py: 2D vector (`Vec2`), a pair of coordinates. -/
structure Vec2 (α : Type) where
  x : α
  y : α
deriving DecidableEq

/-- Vec2.__add__. -/
instance {α : Type} [Add α] : Add (Vec2 α) where
  add a b := ⟨a.x + b.x, a.y + b.y⟩

/-- Vec2.__sub__. -/
instance {α : Type} [Sub α] : Sub (Vec2 α) where
  sub a b := ⟨a.x - b.x, a.y - b.y⟩

/-- Vec2.__mul__ (vector times scalar). -/
instance {α : Type} [Mul α] : HMul (Vec2 α) α (Vec2 α) where
  hMul v s := ⟨v.x * s, v.y * s⟩

/-- Vec2.dot. -/
def Vec2.dot {α : Type} [Mul α] [Add α] (a b : Vec2 α) : α :=
  a.x * b.x + a.y * b.y

/-- Vec2.length_squared. -/
def Vec2.length_squared {α : Type} [Monoid α] [Add α] (v : Vec2 α) : α :=
  v.x ^ 2 + v.y ^ 2

/-- Vec2.copy returns an identical value. -/
def Vec2.copy {α : Type} (v : Vec2 α) : Vec2 α := v

/-- Engine/physics.py: RigidBody dataclass. -/
structure RigidBody (α : Type) where
  position : Vec2 α
  velocity : Vec2 α
  acceleration : Vec2 α
  mass : α
  drag : α
  restitution : α
  is_static : Bool
deriving DecidableEq

/-- RigidBody.apply_force: gated on `is_static`; adds `force / mass` to the
acceleration. -/
def RigidBody.apply_force {α : Type} [Field α] (b : RigidBody α)
    (force : Vec2 α) : RigidBody α :=
  if b.is_static then b
  else { b with acceleration := b.acceleration + force * (1 / b.mass) }

/-- RigidBody.apply_impulse: gated on `is_static`; adds `impulse / mass` to
the velocity. -/
def RigidBody.apply_impulse {α : Type} [Field α] (b : RigidBody α)
    (impulse : Vec2 α) : RigidBody α :=
  if b.is_static then b
  else { b with velocity := b.velocity + impulse * (1 / b.mass) }

/-- RigidBody.update: skipped entirely when static; otherwise applies drag,
integrates velocity and position, and resets the acceleration. -/
def RigidBody.update {α : Type} [Field α] (b : RigidBody α) (dt : α) :
    RigidBody α :=
  if b.is_static then b
  else
    let vel1 := b.velocity * (1 - b.drag)
    let vel2 := vel1 + b.acceleration * dt
    { b with
      velocity := vel2
      position := b.position + vel2 * dt
      acceleration := ⟨0, 0⟩ }

/-- PhysicsWorld.update: applies gravity as a force to every non-static body,
then runs each body's integrator.  The world's body list is modelled as a
plain list, updated elementwise. -/
def physicsWorldUpdate {α : Type} [Field α] (gravity : Vec2 α)
    (bodies : List (RigidBody α)) (dt : α) : List (RigidBody α) :=
  bodies.map (fun b =>
    (if ¬ b.is_static then b.apply_force (gravity * b.mass) else b).update dt)

/-- Iterated world update (`n` consecutive steps with the same `dt`). -/
def physicsWorldUpdateN {α : Type} [Field α] (gravity : Vec2 α)
    (bodies : List (RigidBody α)) (dt : α) : ℕ → List (RigidBody α)
  | 0 => bodies
  | n + 1 => physicsWorldUpdate gravity (physicsWorldUpdateN gravity bodies dt n) dt

/-- Engine/collision.py: CollisionInfo dataclass (hit flag, optional unit
normal, penetration depth, optional contact point). -/
structure CollisionInfo (α : Type) where
  hit : Bool
  normal : Option (Vec2 α)
  depth : α
  point : Option (Vec2 α)
deriving DecidableEq

/-- Engine/collision.py: rect_vs_rect.  Axis-aligned rectangle overlap test;
resolves along the axis of strictly smaller overlap, Y on ties.
`byv` stands for the source parameter `by` (a Lean keyword). -/
def rect_vs_rect {α : Type} [LinearOrderedField α]
    (ax ay aw ah bx byv bw bh : α) : CollisionInfo α :=
  let overlap_x := min (ax + aw) (bx + bw) - max ax bx
  let overlap_y := min (ay + ah) (byv + bh) - max ay byv
  if overlap_x ≤ 0 ∨ overlap_y ≤ 0 then ⟨false, none, 0, none⟩
  else if overlap_x < overlap_y then
    ⟨true, some ⟨if ax < bx then 1 else -1, 0⟩, overlap_x, none⟩
  else
    ⟨true, some ⟨0, if ay < byv then 1 else -1⟩, overlap_y, none⟩

/-- Static rect (x, y, w, h) as handed to resolve_rect_vs_static. -/
structure RectS (α : Type) where
  x : α
  y : α
  w : α
  h : α
deriving DecidableEq

/-- One iteration of the Y pass of resolve_rect_vs_static over a single
static rect, threading (body, grounded, hit_ceiling). -/
def yPassStep {α : Type} [LinearOrderedField α] (width height pad_x epsilon : α)
    (st : RigidBody α × Bool × Bool) (r : RectS α) :
    RigidBody α × Bool × Bool :=
  let b := st.1
  let px := b.position.x - width / 2
  let py := b.position.y - height / 2
  if px + pad_x < r.x + r.w ∧ px + width - pad_x > r.x then
    if py < r.y + r.h ∧ py + height > r.y then
      let overlap_top := (py + height) - r.y
      let overlap_bottom := (r.y + r.h) - py
      if overlap_top < overlap_bottom then
        let b1 := { b with position := ⟨b.position.x, r.y - height / 2 - epsilon⟩ }
        if b.velocity.y > 0 then
          ({ b1 with velocity := ⟨b1.velocity.x, 0⟩ }, true, st.2.2)
        else (b1, st.2.1, st.2.2)
      else
        let b1 := { b with position := ⟨b.position.x, r.y + r.h + height / 2 + epsilon⟩ }
        if b.velocity.y < 0 then
          ({ b1 with velocity := ⟨b1.velocity.x, 0⟩ }, st.2.1, true)
        else (b1, st.2.1, st.2.2)
    else st
  else st

/-- One iteration of the X pass of resolve_rect_vs_static over a single
static rect (sets no flags). -/
def xPassStep {α : Type} [LinearOrderedField α] (width height pad_y epsilon : α)
    (b : RigidBody α) (r : RectS α) : RigidBody α :=
  let px := b.position.x - width / 2
  let py := b.position.y - height / 2
  if py + pad_y < r.y + r.h ∧ py + height - pad_y > r.y then
    if px < r.x + r.w ∧ px + width > r.x then
      let overlap_left := (px + width) - r.x
      let overlap_right := (r.x + r.w) - px
      if overlap_left < overlap_right then
        let b1 := { b with position := ⟨r.x - width / 2 - epsilon, b.position.y⟩ }
        if b.velocity.x > 0 then { b1 with velocity := ⟨0, b1.velocity.y⟩ } else b1
      else
        let b1 := { b with position := ⟨r.x + r.w + width / 2 + epsilon, b.position.y⟩ }
        if b.velocity.x < 0 then { b1 with velocity := ⟨0, b1.velocity.y⟩ } else b1
    else b
  else b

/-- Engine/collision.py: resolve_rect_vs_static.  Two-pass axis-separated
resolution of a dynamic rect body against static world geometry;
returns (body, grounded, hit_ceiling). -/
def resolve_rect_vs_static {α : Type} [LinearOrderedField α] (body : RigidBody α)
    (width height : α) (static_rects : List (RectS α))
    (padding : α := 4) (epsilon : α := 1 / 100) :
    RigidBody α × Bool × Bool :=
  let pad_x := min padding (width * 0.4)
  let pad_y := min padding (height * 0.4)
  let st := static_rects.foldl (yPassStep width height pad_x epsilon)
    (body, false, false)
  let b2 := static_rects.foldl (xPassStep width height pad_y epsilon) st.1
  (b2, st.2.1, st.2.2)

/-- Engine/collision.py: resolve_collision (dynamic impulse resolver).
Returns the pair of bodies after separation and impulse.  The source checks
`body_a.is_static and info.normal` (a `None` test on the normal).  Note that
in the both-static case the impulse scalar divides by `0`; in the source this
raises only after the positional separation has already been applied in
place, and the gated velocity writes are never reached — field division by
zero (`x / 0 = 0`) yields exactly the body states the source has produced at
that point. -/
def resolve_collision {α : Type} [LinearOrderedField α]
    (body_a body_b : RigidBody α) (info : CollisionInfo α) :
    RigidBody α × RigidBody α :=
  if info.hit = false then (body_a, body_b)
  else
    let sep : RigidBody α × RigidBody α :=
      match info.normal with
      | some nrm =>
        if body_a.is_static then
          (body_a, { body_b with position := body_b.position + nrm * info.depth })
        else if body_b.is_static then
          ({ body_a with position := body_a.position - nrm * info.depth }, body_b)
        else
          ({ body_a with position := body_a.position - nrm * (info.depth / 2) },
           { body_b with position := body_b.position + nrm * (info.depth / 2) })
      | none => (body_a, body_b)
    let a1 := sep.1
    let b1 := sep.2
    let rel_vel := b1.velocity - a1.velocity
    match info.normal with
    | none => (a1, b1)
    | some nrm =>
      let vel_along_normal := rel_vel.dot nrm
      if vel_along_normal > 0 then (a1, b1)
      else
        let e := min a1.restitution b1.restitution
        let inv_mass_a := if a1.is_static then 0 else 1 / a1.mass
        let inv_mass_b := if b1.is_static then 0 else 1 / b1.mass
        let j := -(1 + e) * vel_along_normal / (inv_mass_a + inv_mass_b)
        let impulse := nrm * j
        let a2 := if a1.is_static then a1
          else { a1 with velocity := a1.velocity - impulse * inv_mass_a }
        let b2 := if b1.is_static then b1
          else { b1 with velocity := b1.velocity + impulse * inv_mass_b }
        (a2, b2)

/-- Engine/sound.py: Voice.  Samples are 16-bit PCM (`ℤ` in the model),
`offset` is the playback cursor, `lastY` the per-channel one-pole filter
state, `alpha` the filter coefficient computed at construction. -/
structure VoiceS where
  samples : List ℤ
  volume : ℚ
  loop : Bool
  lp_amount : ℚ
  playing : Bool
  offset : ℕ
  lastY : List ℚ
  alpha : ℚ
deriving DecidableEq

/-- Voice.__init__: clamps the low-pass amount into [0, 1] and derives the
filter coefficient `alpha = 1 - lp_amount * 0.95`. -/
def VoiceS.init (samples : List ℤ) (volume : ℚ) (loop : Bool)
    (low_pass : ℚ) (nchannels : ℕ) : VoiceS :=
  let lp := max 0 (min 1 low_pass)
  { samples := samples
    volume := volume
    loop := loop
    lp_amount := lp
    playing := true
    offset := 0
    lastY := List.replicate nchannels 0
    alpha := 1 - lp * 0.95 }

/-- Chunk-extraction step of mixer_gen for one voice: given the sample
buffer, the cursor and the requested sample count, returns
(chunk, new cursor, still playing).  A request running past the end of a
looping buffer wraps the cursor and concatenates tail and head; a
non-looping one clamps to what remains and marks the voice finished. -/
def voicePull (samples : List ℤ) (offset n : ℕ) (loop : Bool) :
    List ℤ × ℕ × Bool :=
  let endIdx := offset + n
  if endIdx > samples.length then
    if loop then
      let part1 := samples.drop offset
      let wrap := n - part1.length
      let offset2 := wrap % samples.length
      let part2 := samples.take offset2
      (part1 ++ part2, offset2, true)
    else
      (samples.drop offset, offset, false)
  else
    ((samples.drop offset).take n, endIdx, true)

/-- Concatenation of the chunks extracted from a looping voice across a
sequence of mixer pulls with the given sizes, starting at cursor `o`. -/
def loopPulls (samples : List ℤ) : ℕ → List ℕ → List ℤ
  | _, [] => []
  | o, n :: ns =>
    let r := voicePull samples o n true
    r.1 ++ loopPulls samples r.2.1 ns

/-- Periodic repetition of the sample buffer: the `k` samples of the
infinite looped signal starting at stream position `start`. -/
def periodicTake (samples : List ℤ) (start k : ℕ) : List ℤ :=
  (List.range k).map (fun i => samples.getD ((start + i) % samples.length) 0)

/-- Reshape a flat interleaved buffer into `rows` frames of `cols` channels
(models numpy reshape(-1, nchannels) when the length is rows * cols). -/
def toFrames (rows cols : ℕ) (l : List ℚ) : List (List ℚ) :=
  (List.range rows).map (fun i => (l.drop (i * cols)).take cols)

/-- One-pole low-pass filter over a list of frames, carrying the per-channel
state `lastY`: `y[n] = alpha * x[n] + (1 - alpha) * y[n-1]`.  Returns the
filtered frames and the final state. -/
def onePoleFrames (alpha : ℚ) (lastY : List ℚ) :
    List (List ℚ) → List (List ℚ) × List ℚ
  | [] => ([], lastY)
  | f :: fs =>
    let yf := List.zipWith (fun x ly => alpha * x + (1 - alpha) * ly) f lastY
    let r := onePoleFrames alpha yf fs
    (yf :: r.1, r.2)

/-- Truncation toward zero, the conversion numpy applies on
`astype(np.int16)` after clipping. -/
def truncQ (x : ℚ) : ℤ := if 0 ≤ x then ⌊x⌋ else ⌈x⌉

/-- Clamp one accumulated float sample to the signed 16-bit range and
convert (np.clip followed by astype(np.int16)). -/
def int16OfClamped (x : ℚ) : ℤ := truncQ (max (-32768) (min 32767 x))

/-- Mixer_gen processing of one playing voice: extract the chunk, update
cursor/finished flag, zero-pad short chunks, scale by
`volume * globalVolume`, optionally low-pass filter, and accumulate into the
mix buffer.  Returns (new mix buffer, updated voice). -/
def processVoice (globalVol : ℚ) (nchannels numSamples : ℕ)
    (mix : List ℚ) (v : VoiceS) : List ℚ × VoiceS :=
  let pull := voicePull v.samples v.offset numSamples v.loop
  let chunk := pull.1
  let v1 : VoiceS := { v with offset := pull.2.1, playing := pull.2.2 }
  if chunk.length > 0 then
    let chunk2 := if chunk.length < numSamples then
        chunk ++ List.replicate (numSamples - chunk.length) 0
      else chunk
    let chunk_f := chunk2.map (fun s => (s : ℚ) * v.volume * globalVol)
    if v.lp_amount > 0.01 then
      let fr := onePoleFrames v.alpha v.lastY
        (toFrames (numSamples / nchannels) nchannels chunk_f)
      (List.zipWith (· + ·) mix fr.1.flatten, { v1 with lastY := fr.2 })
    else
      (List.zipWith (· + ·) mix chunk_f, v1)
  else (mix, v1)

/-- One invocation of the mixer_gen callback body: a zeroed accumulation
buffer of `requiredFrames * nchannels` samples, every still-playing voice
summed in (finished voices are removed), then the whole buffer clamped to
the 16-bit signed range and converted.  Returns the output samples and the
surviving voices. -/
def mixerCallback (globalVol : ℚ) (nchannels requiredFrames : ℕ)
    (voices : List VoiceS) : List ℤ × List VoiceS :=
  let numSamples := requiredFrames * nchannels
  let init : List ℚ := List.replicate numSamples 0
  let res := voices.foldl
    (fun (st : List ℚ × List VoiceS) v =>
      if v.playing = false then st
      else
        let r := processVoice globalVol nchannels numSamples st.1 v
        (r.1, st.2 ++ [r.2]))
    (init, [])
  (res.1.map int16OfClamped, res.2)

/-- Vec2.length: Euclidean norm (math.sqrt of the squared length). -/
noncomputable def Vec2.length (v : Vec2 ℝ) : ℝ :=
  Real.sqrt (v.x ^ 2 + v.y ^ 2)

/-- Vec2.normalized: unit vector in the same direction; the zero vector for
zero length (never divides by zero). -/
noncomputable def Vec2.normalized (v : Vec2 ℝ) : Vec2 ℝ :=
  if v.length = 0 then ⟨0, 0⟩ else ⟨v.x / v.length, v.y / v.length⟩

/-- Distance between two points, as `(b - a).length`. -/
noncomputable def vdist (a b : Vec2 ℝ) : ℝ := (b - a).length

/-- Engine/collision.py: circle_vs_circle.  Non-hit when the centers are at
least the combined radius apart or exactly coincident. -/
noncomputable def circle_vs_circle (pos_a : Vec2 ℝ) (radius_a : ℝ)
    (pos_b : Vec2 ℝ) (radius_b : ℝ) : CollisionInfo ℝ :=
  let diff := pos_b - pos_a
  let dist := diff.length
  let min_dist := radius_a + radius_b
  if dist ≥ min_dist ∨ dist = 0 then ⟨false, none, 0, none⟩
  else
    let normal := diff.normalized
    ⟨true, some normal, min_dist - dist, some (pos_a + normal * radius_a)⟩

/-- Engine/collision.py: circle_vs_rect.  Clamps the circle center to the
rect to find the closest point; when the center is inside the rect
(distance zero) pushes toward the nearest of the four edges, ties broken in
evaluation order left, right, top, bottom. -/
noncomputable def circle_vs_rect (circle_pos : Vec2 ℝ) (radius : ℝ)
    (rect_x rect_y rect_w rect_h : ℝ) : CollisionInfo ℝ :=
  let closest_x := max rect_x (min circle_pos.x (rect_x + rect_w))
  let closest_y := max rect_y (min circle_pos.y (rect_y + rect_h))
  let closest : Vec2 ℝ := ⟨closest_x, closest_y⟩
  let diff := circle_pos - closest
  let dist := diff.length
  if dist ≥ radius then ⟨false, none, 0, none⟩
  else if dist = 0 then
    let dl := circle_pos.x - rect_x
    let dr := (rect_x + rect_w) - circle_pos.x
    let dt := circle_pos.y - rect_y
    let db := (rect_y + rect_h) - circle_pos.y
    let min_p := min (min (min dl dr) dt) db
    if min_p = dl then ⟨true, some ⟨-1, 0⟩, radius + dl, some closest⟩
    else if min_p = dr then ⟨true, some ⟨1, 0⟩, radius + dr, some closest⟩
    else if min_p = dt then ⟨true, some ⟨0, -1⟩, radius + dt, some closest⟩
    else ⟨true, some ⟨0, 1⟩, radius + db, some closest⟩
  else ⟨true, some diff.normalized, radius - dist, some closest⟩

/-- Math.atan2 with the quadrant conventions of the C library. -/
noncomputable def atan2 (y x : ℝ) : ℝ :=
  if x > 0 then Real.arctan (y / x)
  else if x < 0 then
    (if y ≥ 0 then Real.arctan (y / x) + Real.pi
     else Real.arctan (y / x) - Real.pi)
  else if y > 0 then Real.pi / 2
  else if y < 0 then -(Real.pi / 2)
  else 0

/-- Game/boss.py: one trail glyph of an in-flight attack. -/
structure TrailE where
  pos : Vec2 ℝ
  char : String
  life : ℝ

/-- Game/boss.py: one boss attack record (the per-attack dict): position,
velocity, elapsed time, trail, the one-shot penetration flag, and the id of
the platform currently being penetrated (`penetrating_p`). -/
structure Atk where
  pos : Vec2 ℝ
  vel : Vec2 ℝ
  t : ℝ
  trail : List TrailE
  penetrated : Bool
  penetrating_p : Option ℕ

/-- Game/boss.py: one noise-ray record.  `endPos` models the source key
named end. -/
structure NoiseRay where
  start : Vec2 ℝ
  endPos : Vec2 ℝ
  timer : ℝ
  max_t : ℝ

/-- The slice of player state that Boss.update reads or writes. -/
structure PlayerS where
  body : RigidBody ℝ
  cfg_r : ℝ
  is_dashing : Bool
  memory : ℝ
  glitch_effect_timer : ℝ
  glitch_size_factor : ℝ
  glitch_flip_y : Bool
  glitch_color_override : Option (ℤ × ℤ × ℤ)

/-- Game/boss.py: Boss state. -/
structure BossS where
  max_hp : ℝ
  hp : ℝ
  rage : ℝ
  rage_boost : ℝ
  freeze_timer : ℝ
  r : ℝ
  body : RigidBody ℝ
  anim_t : ℝ
  attacks : List Atk
  attack_timer : ℝ
  is_dead : Bool
  noise_rays : List NoiseRay

/-- Randomness oracle for Boss.update: one field per random call site.
Per-attack draws are indexed by the attack's position in the list.
`trailChar` abstracts random.choice over the glyph list, `glitchEffect`
random.choice over the four glitch kinds (values ≥ 3 mean teleport),
`glitchSize` random.choice([0.4, 2.5]), `timerReset`
random.uniform(1.0, 2.5), `rayJitter` the two uniform(-150, 150) draws. -/
structure BossRand where
  trailEmit : ℕ → Bool
  trailChar : ℕ → String
  triggerRnd : ℝ
  timerReset : ℝ
  rayJitter : Vec2 ℝ
  glitchEffect : ℕ → ℕ
  glitchSize : ℕ → Bool
  glitchColor : ℕ → ℤ × ℤ × ℤ
  teleportOff : ℕ → Vec2 ℝ

/-- Game/boss.py: Boss._dist_point_to_segment. -/
noncomputable def dist_point_to_segment (p a b : Vec2 ℝ) : ℝ :=
  let l2 := (a - b).length_squared
  if l2 = 0 then (p - a).length
  else
    let t := max 0 (min 1 ((p - a).dot (b - a) / l2))
    let projection := a + (b - a) * t
    (p - projection).length

/-- Game/boss.py: Boss._apply_glitch, acting on the player; `i` indexes the
attack whose hit triggered it.  Audio and particle emission are dropped. -/
noncomputable def apply_glitch (rage : ℝ) (o : BossRand) (i : ℕ)
    (player : PlayerS) : PlayerS :=
  let p1 := { player with glitch_effect_timer := 2.5 + rage * 2.5 }
  match o.glitchEffect i with
  | 0 => { p1 with glitch_size_factor := if o.glitchSize i then 0.4 else 2.5 }
  | 1 => { p1 with glitch_flip_y := true }
  | 2 => { p1 with glitch_color_override := some (o.glitchColor i) }
  | _ => { p1 with body :=
      { p1.body with position := p1.body.position + o.teleportOff i } }

/-- Game/boss.py: Boss._trigger_attack.  Appends an arrow (rnd < 0.5), a
noise ray (rnd < 0.8) or a five-arrow fan to the boss state. -/
noncomputable def trigger_attack (s : BossS) (player : PlayerS)
    (o : BossRand) : BossS :=
  let rnd := o.triggerRnd
  let atk_speed := 600 + s.rage * 600
  if rnd < 0.5 then
    let dir := (player.body.position - s.body.position).normalized
    { s with attacks := s.attacks ++
        [⟨s.body.position, dir * atk_speed, 0, [], false, none⟩] }
  else if rnd < 0.8 then
    let end_pos := player.body.position + o.rayJitter
    { s with noise_rays := s.noise_rays ++
        [⟨s.body.position, end_pos, 0.8 + s.rage, 0.8 + s.rage⟩] }
  else
    let base_dir := (player.body.position - s.body.position).normalized
    let base_angle := atan2 base_dir.y base_dir.x
    let newAtks := (List.range 5).map (fun k =>
      let i : ℝ := (k : ℝ) - 2
      let angle := base_angle + i * 0.3
      let vel : Vec2 ℝ :=
        (⟨Real.cos angle, Real.sin angle⟩ : Vec2 ℝ) * (atk_speed * 0.8)
      (⟨s.body.position, vel, 0, [], false, none⟩ : Atk))
    { s with attacks := s.attacks ++ newAtks }

/-- Body of the update loop over one in-flight attack (boss.py lines 56-81):
integrate position, age the trail, explode on player contact (applying a
glitch), drop when off screen.  Returns the surviving attack (if any) and
the possibly mutated player. -/
noncomputable def bossUpdateOneAttack (dt rage : ℝ) (o : BossRand) (i : ℕ)
    (player : PlayerS) (atk : Atk) : Option Atk × PlayerS :=
  let a1 := { atk with pos := atk.pos + atk.vel * dt, t := atk.t + dt }
  let trail1 := if o.trailEmit i then
      a1.trail ++ [⟨a1.pos, o.trailChar i, 0.6⟩]
    else a1.trail
  let trail2 := (trail1.map (fun tr => { tr with life := tr.life - dt })).filter
    (fun tr => tr.life > 0)
  let a2 := { a1 with trail := trail2 }
  if (a2.pos - player.body.position).length < 30 then
    (none, apply_glitch rage o i player)
  else if a2.pos.x < (-100 : ℝ) ∨ a2.pos.x > (1380 : ℝ) ∨ a2.pos.y < (-100 : ℝ) ∨ a2.pos.y > (820 : ℝ) then
    (none, player)
  else (some a2, player)

/-- Update loop over the attack list, threading the player state and the
per-attack oracle index. -/
noncomputable def bossUpdateAttacks (dt rage : ℝ) (o : BossRand) :
    ℕ → PlayerS → List Atk → List Atk × PlayerS
  | _, player, [] => ([], player)
  | i, player, atk :: rest =>
    let r := bossUpdateOneAttack dt rage o i player atk
    let rr := bossUpdateAttacks dt rage o (i + 1) r.2 rest
    (match r.1 with
     | none => rr.1
     | some a => a :: rr.1, rr.2)

/-- Update loop over the noise rays (boss.py lines 84-94): tick the timer,
drain player memory while an active ray is close, drop expired rays. -/
noncomputable def bossUpdateNoiseRays (dt : ℝ) :
    PlayerS → List NoiseRay → List NoiseRay × PlayerS
  | player, [] => ([], player)
  | player, ray :: rest =>
    let ray1 := { ray with timer := ray.timer - dt }
    if ray1.timer > 0 then
      let d := dist_point_to_segment player.body.position ray1.start ray1.endPos
      let player1 := if d < player.cfg_r + 15 then
          { player with memory := player.memory - 8 * dt }
        else player
      let r := bossUpdateNoiseRays dt player1 rest
      (ray1 :: r.1, r.2)
    else
      bossUpdateNoiseRays dt player rest

/-- Dash-damage section of Boss.update (boss.py lines 97-111): a dashing
player within `r + 25` deals 15 damage, raises rage_boost, knocks the boss
back, and may kill it. -/
noncomputable def bossDashHit (s : BossS) (player : PlayerS) : BossS × ℕ :=
  if player.is_dashing then
    if (s.body.position - player.body.position).length < s.r + 25 then
      let s1 := { s with hp := s.hp - 15, rage_boost := s.rage_boost + 0.12 }
      let kb := (s1.body.position - player.body.position).normalized * (600 : ℝ)
      let s2 := { s1 with body := { s1.body with velocity := s1.body.velocity + kb } }
      let s3 := if s2.hp ≤ 0 then { s2 with is_dead := true } else s2
      (s3, 1)
    else (s, 0)
  else (s, 0)

/-- Game/boss.py: Boss.update.  Dead bosses return immediately; frozen
bosses only tick down the freeze timer and return 0; otherwise rage, boost
decay, movement force, attack scheduling, attack/ray integration and dash
damage run in source order.  Returns (boss, player, hit_this_frame). -/
noncomputable def Boss.update (s : BossS) (dt : ℝ) (player : PlayerS)
    (o : BossRand) : BossS × PlayerS × ℕ :=
  if s.is_dead then (s, player, 0)
  else if s.freeze_timer > 0 then
    ({ s with freeze_timer := s.freeze_timer - dt }, player, 0)
  else
    let s1 := { s with anim_t := s.anim_t + dt }
    let hp_rage := (1 - s1.hp / s1.max_hp) * 1.2
    let s2 := { s1 with rage := max 0 (min 1 (hp_rage + s1.rage_boost)) }
    let s3 := if s2.rage_boost > 0.1 then
        { s2 with rage_boost := s2.rage_boost - 0.03 * dt }
      else s2
    let target_pos : Vec2 ℝ :=
      ⟨640 + Real.sin (s3.anim_t * 0.5) * 400,
       200 + Real.cos (s3.anim_t * 0.8) * 100⟩
    let to_target := target_pos - s3.body.position
    let s4 := { s3 with body := s3.body.apply_force (to_target * (5 : ℝ)) }
    let s5 := { s4 with attack_timer := s4.attack_timer - dt * (1 + s4.rage) }
    let s6 := if s5.attack_timer ≤ 0 then
        let st := trigger_attack s5 player o
        { st with attack_timer := o.timerReset / (1 + st.rage * 1.5) }
      else s5
    let ar := bossUpdateAttacks dt s6.rage o 0 player s6.attacks
    let s7 := { s6 with attacks := ar.1 }
    let nr := bossUpdateNoiseRays dt ar.2 s7.noise_rays
    let s8 := { s7 with noise_rays := nr.1 }
    let dh := bossDashHit s8 nr.2
    (dh.1, nr.2, dh.2)

/-- Game/boss.py: Boss.freeze. -/
noncomputable def Boss.freeze (s : BossS) (duration : ℝ) : BossS :=
  let s1 := { s with freeze_timer := duration, rage_boost := s.rage_boost - 0.4 }
  if s1.rage_boost < -0.5 then { s1 with rage_boost := -0.5 } else s1

/-- A visible platform as seen by EnemyManager.update; `pid` models the
CPython object identity id(p) used as the penetration marker. -/
structure Plat where
  pid : ℕ
  x : ℝ
  y : ℝ
  w : ℝ
  h : ℝ

/-- The strict containment test of enemies.py line 80:
`p.x < pos.x < p.x + p.w and p.y < pos.y < p.y + p.h`. -/
def Plat.contains (p : Plat) (pos : Vec2 ℝ) : Prop :=
  p.x < pos.x ∧ pos.x < p.x + p.w ∧ p.y < pos.y ∧ pos.y < p.y + p.h

/-- Containment is decidable (classically, over the reals). -/
noncomputable instance (p : Plat) (pos : Vec2 ℝ) :
    Decidable (Plat.contains p pos) := by
  unfold Plat.contains; infer_instance

/-- Game/enemies.py lines 79-100: the platform loop for one boss projectile.
Inside a platform: skip if it is the one currently being penetrated,
penetrate (halving velocity) if the one-shot flag is clear, otherwise
explode (remove).  Outside: clear a stale penetration marker.  Returns the
surviving attack, `none` when the projectile explodes. -/
noncomputable def atkPlatformStep (atk : Atk) : List Plat → Option Atk
  | [] => some atk
  | p :: rest =>
    if p.contains atk.pos then
      if atk.penetrating_p = some p.pid then atkPlatformStep atk rest
      else if atk.penetrated = false then
        some { atk with penetrated := true, penetrating_p := some p.pid,
                        vel := atk.vel * (0.5 : ℝ) }
      else none
    else
      if atk.penetrating_p = some p.pid then
        atkPlatformStep { atk with penetrating_p := none } rest
      else atkPlatformStep atk rest

/-- Game/enemies.py: the arrows-vs-platforms pass of EnemyManager.update,
applied to every boss attack independently (exploded ones are removed). -/
noncomputable def attacksPlatformPass (atks : List Atk) (ps : List Plat) :
    List Atk :=
  atks.filterMap (fun a => atkPlatformStep a ps)

/-- Example: a static body with nonzero velocity fields, as a dataclass
permits. -/
def exStaticA : RigidBody ℚ :=
  { position := ⟨1, 1⟩, velocity := ⟨0, 0⟩, acceleration := ⟨0, 0⟩,
    mass := 1, drag := 0, restitution := 1 / 2, is_static := true }

/-- Example: a second static body, overlapping `exStaticA` as a 2 x 2 rect
collider, moving apart so the impulse stage returns early. -/
def exStaticB : RigidBody ℚ :=
  { position := ⟨2, 2⟩, velocity := ⟨0, 5⟩, acceleration := ⟨0, 0⟩,
    mass := 1, drag := 0, restitution := 1 / 2, is_static := true }

/-- Example: a falling dynamic body whose box overlaps a platform
horizontally by less than the padding. -/
def exFaller : RigidBody ℚ :=
  { position := ⟨-1, 0⟩, velocity := ⟨0, 5⟩, acceleration := ⟨0, 0⟩,
    mass := 1, drag := 0, restitution := 0, is_static := false }

/-- Example: a falling dynamic body squarely above a platform top edge. -/
def exFaller2 : RigidBody ℚ :=
  { position := ⟨50, -1⟩, velocity := ⟨0, 5⟩, acceleration := ⟨0, 0⟩,
    mass := 1, drag := 0, restitution := 0, is_static := false }

/-- Example: an in-flight boss attack that has not penetrated anything. -/
noncomputable def exAtk : Atk :=
  { pos := ⟨0, 0⟩, vel := ⟨100, 0⟩, t := 0, trail := [],
    penetrated := false, penetrating_p := none }

/-- Example: a frozen, alive boss holding one in-flight attack. -/
noncomputable def exBoss : BossS :=
  { max_hp := 300, hp := 300, rage := 0, rage_boost := 1 / 10,
    freeze_timer := 1, r := 60,
    body := { position := ⟨640, 200⟩, velocity := ⟨0, 0⟩,
              acceleration := ⟨0, 0⟩, mass := 10, drag := 1 / 10,
              restitution := 1 / 2, is_static := false },
    anim_t := 0, attacks := [exAtk], attack_timer := 2,
    is_dead := false, noise_rays := [] }

/-- Example: a dashing player standing right next to the boss. -/
noncomputable def exPlayer : PlayerS :=
  { body := { position := ⟨650, 200⟩, velocity := ⟨0, 0⟩,
              acceleration := ⟨0, 0⟩, mass := 1, drag := 0,
              restitution := 0, is_static := false },
    cfg_r := 18, is_dashing := true, memory := 100,
    glitch_effect_timer := 0, glitch_size_factor := 1,
    glitch_flip_y := false, glitch_color_override := none }

/-- Example: a fixed randomness oracle. -/
noncomputable def exRand : BossRand :=
  { trailEmit := fun _ => false, trailChar := fun _ => "",
    triggerRnd := 0, timerReset := 2, rayJitter := ⟨0, 0⟩,
    glitchEffect := fun _ => 1, glitchSize := fun _ => true,
    glitchColor := fun _ => (0, 0, 0), teleportOff := fun _ => ⟨0, 0⟩ }

/-- Example: the spec's arrow-penetration projectile, inside a 100-wide
platform it fully overlaps vertically. -/
noncomputable def exArrow : Atk :=
  { pos := ⟨50, 0⟩, vel := ⟨500, 0⟩, t := 0, trail := [],
    penetrated := false, penetrating_p := none }

/-- Example: first platform of the arrow-penetration scenario. -/
noncomputable def exPlatA : Plat := { pid := 0, x := 0, y := -50, w := 100, h := 100 }

/-- Example: a second, distinct platform also containing the arrow. -/
noncomputable def exPlatB : Plat := { pid := 1, x := 40, y := -50, w := 100, h := 100 }

/-- Example: the arrow after penetrating the first platform. -/
noncomputable def exArrowPen : Atk :=
  { pos := ⟨50, 0⟩, vel := ⟨250, 0⟩, t := 0, trail := [],
    penetrated := true, penetrating_p := some 0 }

/-! Helper lemmas. -/

/-- Componentwise form of vector addition. -/
@[simp] theorem Vec2.add_mk {α : Type} [Add α] (a b c d : α) :
    (⟨a, b⟩ : Vec2 α) + ⟨c, d⟩ = ⟨a + c, b + d⟩ := rfl

/-- Componentwise form of vector subtraction. -/
@[simp] theorem Vec2.sub_mk {α : Type} [Sub α] (a b c d : α) :
    (⟨a, b⟩ : Vec2 α) - ⟨c, d⟩ = ⟨a - c, b - d⟩ := rfl

/-- Componentwise form of vector scaling. -/
@[simp] theorem Vec2.smul_mk {α : Type} [Mul α] (a b s : α) :
    (⟨a, b⟩ : Vec2 α) * s = ⟨a * s, b * s⟩ := rfl

/-- Componentwise form of general vector addition. -/
theorem Vec2.add_def {α : Type} [Add α] (v w : Vec2 α) :
    v + w = ⟨v.x + w.x, v.y + w.y⟩ := rfl

/-- Componentwise form of general vector subtraction. -/
theorem Vec2.sub_def {α : Type} [Sub α] (v w : Vec2 α) :
    v - w = ⟨v.x - w.x, v.y - w.y⟩ := rfl

/-- Componentwise form of general vector scaling. -/
theorem Vec2.smul_def {α : Type} [Mul α] (v : Vec2 α) (s : α) :
    v * s = ⟨v.x * s, v.y * s⟩ := rfl

/-- A static body is a fixed point of its own integrator. -/
theorem RigidBody.update_static {α : Type} [Field α] (b : RigidBody α)
    (h : b.is_static = true) (dt : α) : b.update dt = b := by
  simp [RigidBody.update, h]

/-- A static body is a fixed point of apply_force. -/
theorem RigidBody.apply_force_static {α : Type} [Field α] (b : RigidBody α)
    (h : b.is_static = true) (f : Vec2 α) : b.apply_force f = b := by
  simp [RigidBody.apply_force, h]

/-- A static body is a fixed point of apply_impulse. -/
theorem RigidBody.apply_impulse_static {α : Type} [Field α] (b : RigidBody α)
    (h : b.is_static = true) (f : Vec2 α) : b.apply_impulse f = b := by
  simp [RigidBody.apply_impulse, h]

/-- A static body is a fixed point of one whole world step. -/
theorem physicsWorldUpdate_static {α : Type} [Field α] (g : Vec2 α)
    (bodies : List (RigidBody α)) (dt : α) (i : ℕ) (b : RigidBody α)
    (hb : bodies[i]? = some b) (h : b.is_static = true) :
    (physicsWorldUpdate g bodies dt)[i]? = some b := by
  rw [physicsWorldUpdate, List.getElem?_map, hb]
  simp [h, RigidBody.update_static]

/-- A static body is a fixed point of any number of world steps. -/
theorem physicsWorldUpdateN_static {α : Type} [Field α] (g : Vec2 α)
    (bodies : List (RigidBody α)) (dt : α) (i : ℕ) (b : RigidBody α)
    (hb : bodies[i]? = some b) (h : b.is_static = true) (n : ℕ) :
    (physicsWorldUpdateN g bodies dt n)[i]? = some b := by
  induction n with
  | zero => exact hb
  | succ n ih => exact physicsWorldUpdate_static g _ dt i b ih h

/-- A static first body is never mutated by resolve_collision. -/
theorem resolve_collision_static_left {α : Type} [LinearOrderedField α]
    (a b : RigidBody α) (info : CollisionInfo α) (ha : a.is_static = true) :
    (resolve_collision a b info).1 = a := by
  rcases info with ⟨hit, normal, depth, point⟩
  cases hit
  · simp [resolve_collision]
  · cases normal with
    | none => simp [resolve_collision]
    | some nrm =>
      simp only [resolve_collision, ha]
      split_ifs <;> simp_all

/-- A static second body is never mutated by resolve_collision when the
first body is dynamic. -/
theorem resolve_collision_static_right {α : Type} [LinearOrderedField α]
    (a b : RigidBody α) (info : CollisionInfo α) (hb : b.is_static = true)
    (ha : a.is_static = false) :
    (resolve_collision a b info).2 = b := by
  rcases info with ⟨hit, normal, depth, point⟩
  cases hit
  · simp [resolve_collision]
  · cases normal with
    | none => simp [resolve_collision]
    | some nrm =>
      simp only [resolve_collision, ha, hb]
      split_ifs <;> simp_all

/-- C9 (corrected): a static body's position and velocity are untouched by
the integrator, by any number of world steps, by apply_force and
apply_impulse, and by resolve_collision whenever the static body is in the
first slot or the other body is dynamic.  (As originally stated the claim
is false: when both bodies are static, resolve_collision translates the
second one — see the counterexample.) -/
theorem C9_static_body_invariance :
    (∀ (b : RigidBody ℚ) (dt : ℚ), b.is_static = true → b.update dt = b) ∧
    (∀ (g : Vec2 ℚ) (bodies : List (RigidBody ℚ)) (dt : ℚ) (i : ℕ)
       (b : RigidBody ℚ), bodies[i]? = some b → b.is_static = true →
       ∀ n : ℕ, (physicsWorldUpdateN g bodies dt n)[i]? = some b) ∧
    (∀ (b : RigidBody ℚ) (f : Vec2 ℚ), b.is_static = true →
       b.apply_force f = b ∧ b.apply_impulse f = b) ∧
    (∀ (a b : RigidBody ℚ) (info : CollisionInfo ℚ), a.is_static = true →
       (resolve_collision a b info).1 = a) ∧
    (∀ (a b : RigidBody ℚ) (info : CollisionInfo ℚ), b.is_static = true →
       a.is_static = false → (resolve_collision a b info).2 = b) := by
  refine ⟨fun b dt h => RigidBody.update_static b h dt,
    fun g bodies dt i b hb h n => physicsWorldUpdateN_static g bodies dt i b hb h n,
    fun b f h => ⟨RigidBody.apply_force_static b h f,
      RigidBody.apply_impulse_static b h f⟩,
    fun a b info ha => resolve_collision_static_left a b info ha,
    fun a b info hb ha => resolve_collision_static_right a b info hb ha⟩

/-- Witness for C9 at concrete inputs: a static body with nonzero velocity
survives three world steps, force and impulse application, and a
resolve_collision pairing with a dynamic body, unchanged. -/
theorem C9_static_body_invariance_witness :
    exStaticA.is_static = true ∧
    ([exStaticA][0]? = some exStaticA) ∧
    (physicsWorldUpdateN ⟨0, 10⟩ [exStaticA] (1 / 60) 3)[0]? = some exStaticA ∧
    exStaticA.apply_force ⟨7, 7⟩ = exStaticA ∧
    (resolve_collision exStaticA exFaller (rect_vs_rect 0 0 2 2 1 1 2 2)).1 =
      exStaticA := by
  refine ⟨rfl, rfl, ?_, ?_, ?_⟩
  · exact C9_static_body_invariance.2.1 ⟨0, 10⟩ [exStaticA] (1 / 60) 0
      exStaticA rfl rfl 3
  · exact (C9_static_body_invariance.2.2.1 exStaticA ⟨7, 7⟩ rfl).1
  · exact C9_static_body_invariance.2.2.2.1 exStaticA exFaller _ rfl

/-- Counterexample for C9 as stated: pairing two overlapping static rect
bodies, resolve_collision translates the (static) second body by the full
depth along the contact normal, so its position does change. -/
theorem C9_static_body_invariance_cex :
    exStaticA.is_static = true ∧ exStaticB.is_static = true ∧
    (rect_vs_rect (0 : ℚ) 0 2 2 1 1 2 2).hit = true ∧
    (resolve_collision exStaticA exStaticB
        (rect_vs_rect (0 : ℚ) 0 2 2 1 1 2 2)).2.position ≠
      exStaticB.position := by
  have hrect : rect_vs_rect (0 : ℚ) 0 2 2 1 1 2 2 =
      ⟨true, some ⟨0, 1⟩, 1, none⟩ := by
    norm_num [rect_vs_rect]
  refine ⟨rfl, rfl, by rw [hrect], ?_⟩
  rw [hrect]
  norm_num [resolve_collision, exStaticA, exStaticB, Vec2.dot, Vec2.mk.injEq]

/-- C8 (confirmed): rect_vs_rect with exactly equal positive overlaps
resolves along Y (normal (0, plus or minus 1), depth the Y overlap), and a
resolution whose normal lies along X can only arise when the X overlap is
strictly smaller than the Y overlap. -/
theorem C8_rect_tie_resolves_on_y
    (ax ay aw ah bx byv bw bh : ℚ)
    (hx : 0 < min (ax + aw) (bx + bw) - max ax bx)
    (heq : min (ax + aw) (bx + bw) - max ax bx =
           min (ay + ah) (byv + bh) - max ay byv) :
    ((rect_vs_rect ax ay aw ah bx byv bw bh).hit = true ∧
     (rect_vs_rect ax ay aw ah bx byv bw bh).normal =
       some ⟨0, if ay < byv then 1 else -1⟩ ∧
     (rect_vs_rect ax ay aw ah bx byv bw bh).depth =
       min (ay + ah) (byv + bh) - max ay byv) ∧
    (∀ v : Vec2 ℚ,
      (rect_vs_rect ax ay aw ah bx byv bw bh).normal = some v → v.y = 0 →
      min (ax + aw) (bx + bw) - max ax bx <
        min (ay + ah) (byv + bh) - max ay byv) := by
  constructor
  · rw [rect_vs_rect]
    rw [if_neg (by push_neg; constructor <;> linarith), if_neg (by linarith)]
    exact ⟨rfl, rfl, rfl⟩
  · intro v hv hy
    rw [rect_vs_rect] at hv
    rw [if_neg (by push_neg; constructor <;> linarith)] at hv
    by_cases h2 : min (ax + aw) (bx + bw) - max ax bx <
        min (ay + ah) (byv + bh) - max ay byv
    · exact h2
    · rw [if_neg h2] at hv
      exfalso
      have hvv : v = ⟨0, if ay < byv then (1 : ℚ) else -1⟩ := by
        simpa using hv.symm
      rw [hvv] at hy
      simp only at hy
      split_ifs at hy <;> norm_num at hy

/-- Witness for C8: two unit-offset 2 x 2 squares with equal overlaps 1 on
both axes resolve on Y with depth 1. -/
theorem C8_rect_tie_resolves_on_y_witness :
    (0 : ℚ) < min ((0 : ℚ) + 2) (1 + 2) - max 0 1 ∧
    (rect_vs_rect (0 : ℚ) 0 2 2 1 1 2 2).hit = true ∧
    (rect_vs_rect (0 : ℚ) 0 2 2 1 1 2 2).normal = some ⟨0, 1⟩ ∧
    (rect_vs_rect (0 : ℚ) 0 2 2 1 1 2 2).depth = 1 := by
  have h := C8_rect_tie_resolves_on_y 0 0 2 2 1 1 2 2 (by norm_num) (by norm_num)
  refine ⟨by norm_num, h.1.1, ?_, ?_⟩
  · have := h.1.2.1
    norm_num at this ⊢
    exact this
  · have := h.1.2.2
    norm_num at this ⊢
    exact this

/-- The Y pass of resolve_rect_vs_static snaps a falling body that passes
the padded horizontal test onto the platform top. -/
theorem yPassStep_snap_top (body : RigidBody ℚ) (width height pad_x ε : ℚ)
    (r : RectS ℚ) (g hc : Bool)
    (hv : body.velocity.y > 0)
    (hhor1 : body.position.x - width / 2 + pad_x < r.x + r.w)
    (hhor2 : body.position.x - width / 2 + width - pad_x > r.x)
    (hvert1 : body.position.y - height / 2 < r.y + r.h)
    (hvert2 : body.position.y - height / 2 + height > r.y)
    (htop : (body.position.y - height / 2 + height) - r.y <
            (r.y + r.h) - (body.position.y - height / 2)) :
    yPassStep width height pad_x ε (body, g, hc) r =
      ({ body with position := ⟨body.position.x, r.y - height / 2 - ε⟩,
                   velocity := ⟨body.velocity.x, 0⟩ }, true, hc) := by
  rw [yPassStep]
  simp only
  rw [if_pos ⟨hhor1, hhor2⟩, if_pos ⟨hvert1, hvert2⟩, if_pos htop, if_pos hv]

/-- The X pass of resolve_rect_vs_static skips a body that rests on the
platform top with positive epsilon separation. -/
theorem xPassStep_skip_on_top (b : RigidBody ℚ) (width height pad_y ε : ℚ)
    (r : RectS ℚ)
    (hy : b.position.y = r.y - height / 2 - ε)
    (hε : 0 < ε) (hpad : 0 ≤ pad_y) :
    xPassStep width height pad_y ε b r = b := by
  rw [xPassStep]
  simp only
  rw [if_neg]
  intro hcond
  have h2 := hcond.2
  rw [hy] at h2
  linarith

/-- C2 (corrected): a falling body (velocity.y > 0) that passes the code's
padded horizontal-overlap test against a single static rect, overlaps it
vertically, and is closer to the rect's top than its bottom, is snapped to
y = rectY - height/2 - epsilon with velocity.y = 0 and grounded = true
(and the X pass then leaves it alone).  (As originally stated — with plain
box overlap instead of the padding-narrowed test — the claim is false: see
the counterexample, where the box overlaps the rect by less than the
padding and the Y pass never fires.) -/
theorem C2_platform_snap (body : RigidBody ℚ) (width height padding ε : ℚ)
    (r : RectS ℚ)
    (hv : body.velocity.y > 0)
    (hhor1 : body.position.x - width / 2 + min padding (width * 0.4) < r.x + r.w)
    (hhor2 : body.position.x - width / 2 + width - min padding (width * 0.4) > r.x)
    (hvert1 : body.position.y - height / 2 < r.y + r.h)
    (hvert2 : body.position.y - height / 2 + height > r.y)
    (htop : (body.position.y - height / 2 + height) - r.y <
            (r.y + r.h) - (body.position.y - height / 2))
    (hε : 0 < ε) (hpad : 0 ≤ padding) (hh : 0 ≤ height) :
    resolve_rect_vs_static body width height [r] padding ε =
      ({ body with position := ⟨body.position.x, r.y - height / 2 - ε⟩,
                   velocity := ⟨body.velocity.x, 0⟩ }, true, false) := by
  have hpad_y : 0 ≤ min padding (height * 0.4) :=
    le_min hpad (mul_nonneg hh (by norm_num))
  rw [resolve_rect_vs_static]
  simp only [List.foldl_cons, List.foldl_nil]
  rw [yPassStep_snap_top body width height _ ε r false false hv hhor1 hhor2
    hvert1 hvert2 htop]
  rw [xPassStep_skip_on_top _ width height _ ε r rfl hε hpad_y]

/-- Witness for C2 at concrete inputs: a 10 x 10 body falling squarely onto
a 100 x 20 platform top lands exactly at -501/100 with zero vertical
velocity and grounded set. -/
theorem C2_platform_snap_witness :
    exFaller2.velocity.y > 0 ∧
    resolve_rect_vs_static exFaller2 10 10 [⟨0, 0, 100, 20⟩] 4 (1 / 100) =
      ({ exFaller2 with position := ⟨50, -(501 / 100)⟩,
                        velocity := ⟨0, 0⟩ }, true, false) := by
  have h := C2_platform_snap exFaller2 10 10 4 (1 / 100) ⟨0, 0, 100, 20⟩
    (by norm_num [exFaller2]) (by norm_num [exFaller2]) (by norm_num [exFaller2])
    (by norm_num [exFaller2]) (by norm_num [exFaller2]) (by norm_num [exFaller2])
    (by norm_num) (by norm_num) (by norm_num)
  refine ⟨by norm_num [exFaller2], ?_⟩
  rw [h]
  norm_num [exFaller2]

/-- Counterexample for C2 as stated: a falling 10 x 10 body whose box
overlaps the platform (X overlap 4, Y overlap 5, both positive) and is
closer to the top, yet — because the X overlap is not larger than the
padding — the Y pass skips the rect: the call returns grounded = false and
leaves y at 0 instead of snapping it to -501/100. -/
theorem C2_platform_snap_cex :
    exFaller.velocity.y > 0 ∧
    (0 : ℚ) < min (exFaller.position.x - 5 + 10) (0 + 100) -
      max (exFaller.position.x - 5) 0 ∧
    (0 : ℚ) < min (exFaller.position.y - 5 + 10) (0 + 100) -
      max (exFaller.position.y - 5) 0 ∧
    (exFaller.position.y - 5 + 10) - 0 < (0 + 100) - (exFaller.position.y - 5) ∧
    (resolve_rect_vs_static exFaller 10 10 [⟨0, 0, 100, 100⟩] 4 (1 / 100)).2.1
      = false ∧
    (resolve_rect_vs_static exFaller 10 10 [⟨0, 0, 100, 100⟩] 4 (1 / 100)).1.position.y
      = 0 ∧
    (0 : ℚ) ≠ 0 - 10 / 2 - 1 / 100 := by
  have hres : resolve_rect_vs_static exFaller 10 10 [⟨0, 0, 100, 100⟩] 4 (1 / 100) =
      ({ exFaller with position := ⟨-(501 / 100), 0⟩ }, false, false) := by
    rw [resolve_rect_vs_static]
    simp only [List.foldl_cons, List.foldl_nil]
    rw [yPassStep]
    simp only
    rw [if_neg (show ¬ _ by norm_num [exFaller])]
    rw [xPassStep]
    norm_num [exFaller]
  refine ⟨by norm_num [exFaller], by norm_num [exFaller], by norm_num [exFaller],
    by norm_num [exFaller], by rw [hres], by rw [hres],
    by norm_num⟩

/-- List.getD with an in-range index is plain indexing. -/
theorem getD_eq_getElem_of_lt (s : List ℤ) (i : ℕ) (h : i < s.length) :
    s.getD i 0 = s[i] := by
  simp [List.getD_eq_getElem?_getD, List.getElem?_eq_getElem h]

/-- PeriodicTake splits across a sum of lengths. -/
theorem periodicTake_add (s : List ℤ) (o a b : ℕ) :
    periodicTake s o (a + b) = periodicTake s o a ++ periodicTake s (o + a) b := by
  unfold periodicTake
  rw [List.range_add, List.map_append, List.map_map]
  congr 1
  apply List.map_congr_left
  intro i _
  simp [Function.comp, Nat.add_assoc]

/-- PeriodicTake only depends on the start position modulo the length. -/
theorem periodicTake_mod (s : List ℤ) (o n : ℕ) :
    periodicTake s (o % s.length) n = periodicTake s o n := by
  unfold periodicTake
  apply List.map_congr_left
  intro i _
  rw [Nat.mod_add_mod]

/-- The buffer tail is an initial run of the periodic stream. -/
theorem drop_eq_periodicTake (s : List ℤ) (o : ℕ) (ho : o ≤ s.length) :
    s.drop o = periodicTake s o (s.length - o) := by
  apply List.ext_getElem
  · simp [periodicTake]
  · intro i h1 h2
    have hi : o + i < s.length := by simp at h1; omega
    rw [List.getElem_drop s]
    simp only [periodicTake, List.getElem_map, List.getElem_range]
    rw [Nat.mod_eq_of_lt hi, getD_eq_getElem_of_lt s _ hi]

/-- The buffer head is an initial run of the periodic stream from 0. -/
theorem take_eq_periodicTake (s : List ℤ) (w : ℕ) (hw : w ≤ s.length) :
    s.take w = periodicTake s 0 w := by
  apply List.ext_getElem
  · simp [periodicTake]; omega
  · intro i h1 h2
    have hi : i < s.length := by simp at h1; omega
    rw [List.getElem_take s]
    simp only [periodicTake, List.getElem_map, List.getElem_range]
    rw [Nat.zero_add, Nat.mod_eq_of_lt hi, getD_eq_getElem_of_lt s _ hi]

/-- A single looping pull that needs at most one wrap extracts exactly the
next `n` samples of the periodic stream, and the cursor stays consistent. -/
theorem voicePull_loop_spec (s : List ℤ) (o n : ℕ) (hL : 0 < s.length)
    (ho : o ≤ s.length) (hn : n < s.length) :
    (voicePull s o n true).1 = periodicTake s o n ∧
    (voicePull s o n true).2.1 ≤ s.length ∧
    (voicePull s o n true).2.1 % s.length = (o + n) % s.length := by
  rw [voicePull]
  by_cases h : o + n > s.length
  · rw [if_pos h]
    simp only [eq_self_iff_true, if_true]
    have hlen : (s.drop o).length = s.length - o := by simp
    have hwlt : o + n - s.length < s.length := by omega
    have hw : (n - (s.drop o).length) % s.length = o + n - s.length := by
      rw [hlen, show n - (s.length - o) = o + n - s.length by omega,
        Nat.mod_eq_of_lt hwlt]
    refine ⟨?_, ?_, ?_⟩
    · show s.drop o ++ s.take ((n - (s.drop o).length) % s.length) =
        periodicTake s o n
      rw [hw]
      have hsplit : (s.length - o) + (o + n - s.length) = n := by omega
      calc s.drop o ++ s.take (o + n - s.length)
          = periodicTake s o (s.length - o) ++
              periodicTake s 0 (o + n - s.length) := by
            rw [drop_eq_periodicTake s o ho,
              take_eq_periodicTake s _ (le_of_lt hwlt)]
        _ = periodicTake s o (s.length - o) ++
              periodicTake s (o + (s.length - o)) (o + n - s.length) := by
            rw [Nat.add_sub_cancel' ho,
              ← periodicTake_mod s s.length, Nat.mod_self]
        _ = periodicTake s o ((s.length - o) + (o + n - s.length)) :=
            (periodicTake_add s o _ _).symm
        _ = periodicTake s o n := by rw [hsplit]
    · show (n - (s.drop o).length) % s.length ≤ s.length
      rw [hw]; omega
    · show (n - (s.drop o).length) % s.length % s.length = (o + n) % s.length
      rw [hw, Nat.mod_eq_of_lt hwlt]
      exact ((Nat.mod_eq_sub_mod (show o + n ≥ s.length from le_of_lt h)).trans
        (Nat.mod_eq_of_lt hwlt)).symm
  · rw [if_neg h]
    push_neg at h
    refine ⟨?_, by simpa using h, by simp⟩
    show (s.drop o).take n = periodicTake s o n
    apply List.ext_getElem
    · simp [periodicTake]; omega
    · intro i h1 h2
      have hi : o + i < s.length := by
        simp at h1; omega
      rw [List.getElem_take, List.getElem_drop]
      simp only [periodicTake, List.getElem_map, List.getElem_range]
      rw [Nat.mod_eq_of_lt hi, getD_eq_getElem_of_lt s _ hi]

/-- Concatenated looping pulls follow the periodic stream, provided every
pull is smaller than the buffer. -/
theorem loopPulls_eq_periodic (s : List ℤ) (hL : 0 < s.length) :
    ∀ (ns : List ℕ) (o : ℕ), o ≤ s.length → (∀ n ∈ ns, n < s.length) →
    loopPulls s o ns = periodicTake s o ns.sum := by
  intro ns
  induction ns with
  | nil => intro o _ _; simp [loopPulls, periodicTake]
  | cons n ns ih =>
    intro o ho hns
    have hn : n < s.length := hns n (by simp)
    have hspec := voicePull_loop_spec s o n hL ho hn
    rw [loopPulls, hspec.1]
    rw [ih _ hspec.2.1 (fun m hm => hns m (by simp [hm]))]
    rw [List.sum_cons, periodicTake_add]
    congr 1
    rw [← periodicTake_mod s ((voicePull s o n true).2.1), hspec.2.2,
      periodicTake_mod]

/-- C4 (corrected): for a looping voice of buffer length L > 0 and any pull
sequence in which every requested chunk is smaller than L, the concatenation
of the extracted chunks equals the periodic repetition of the buffer — no
sample dropped or duplicated, the cursor wrapping from tail to head.  (As
originally stated — for arbitrary chunk sizes — the claim is false: a pull
needing more than one wrap truncates, see the counterexample.) -/
theorem C4_loop_wrap_correctness (s : List ℤ) (ns : List ℕ)
    (hL : 0 < s.length) (hns : ∀ n ∈ ns, n < s.length) :
    loopPulls s 0 ns = periodicTake s 0 ns.sum :=
  loopPulls_eq_periodic s hL ns 0 (Nat.zero_le _) hns

/-- Witness for C4: buffer [1, 2, 3] pulled in chunks of 2 (not dividing 3)
reproduces the looped stream 1,2,3,1,2,3,1,2. -/
theorem C4_loop_wrap_correctness_witness :
    (0 < ([1, 2, 3] : List ℤ).length) ∧
    (∀ n ∈ ([2, 2, 2, 2] : List ℕ), n < ([1, 2, 3] : List ℤ).length) ∧
    loopPulls [1, 2, 3] 0 [2, 2, 2, 2] =
      periodicTake [1, 2, 3] 0 ([2, 2, 2, 2] : List ℕ).sum ∧
    loopPulls [1, 2, 3] 0 [2, 2, 2, 2] = [1, 2, 3, 1, 2, 3, 1, 2] := by
  refine ⟨by decide, by decide, ?_, by decide⟩
  exact C4_loop_wrap_correctness [1, 2, 3] [2, 2, 2, 2] (by decide) (by decide)

/-- Counterexample for C4 as stated: one pull of 5 samples from a looping
2-sample buffer [1, 2] yields [1, 2, 1] — the code wraps only once — while
the periodic stream has [1, 2, 1, 2, 1]; samples are dropped (the mixer
then zero-pads). -/
theorem C4_loop_wrap_correctness_cex :
    loopPulls [1, 2] 0 [5] = [1, 2, 1] ∧
    periodicTake [1, 2] 0 ([5] : List ℕ).sum = [1, 2, 1, 2, 1] ∧
    loopPulls [1, 2] 0 [5] ≠ periodicTake [1, 2] 0 ([5] : List ℕ).sum := by
  refine ⟨by decide, by decide, by decide⟩

/-- Every clamped-and-converted sample is inside the signed 16-bit range. -/
theorem int16OfClamped_bounds (x : ℚ) :
    -32768 ≤ int16OfClamped x ∧ int16OfClamped x ≤ 32767 := by
  have hc1 : (-32768 : ℚ) ≤ max (-32768) (min 32767 x) := le_max_left _ _
  have hc2 : max (-32768 : ℚ) (min 32767 x) ≤ 32767 :=
    max_le (by norm_num) (min_le_left _ _)
  rw [int16OfClamped, truncQ]
  split_ifs with h
  · constructor
    · have : (0 : ℤ) ≤ ⌊max (-32768 : ℚ) (min 32767 x)⌋ := Int.floor_nonneg.mpr h
      omega
    · have h32 : ((32767 : ℤ) : ℚ) = 32767 := by norm_num
      calc ⌊max (-32768 : ℚ) (min 32767 x)⌋ ≤ ⌊((32767 : ℤ) : ℚ)⌋ :=
            Int.floor_le_floor (by rw [h32]; exact hc2)
        _ = 32767 := Int.floor_intCast _
  · push_neg at h
    constructor
    · have h32 : ((-32768 : ℤ) : ℚ) = -32768 := by norm_num
      calc (-32768 : ℤ) = ⌈((-32768 : ℤ) : ℚ)⌉ := (Int.ceil_intCast _).symm
        _ ≤ ⌈max (-32768 : ℚ) (min 32767 x)⌉ := Int.ceil_le_ceil (by rw [h32]; exact hc1)
    · have hcc : ⌈max (-32768 : ℚ) (min 32767 x)⌉ ≤ ⌈(0 : ℚ)⌉ :=
        Int.ceil_le_ceil (le_of_lt h)
      rw [Int.ceil_zero] at hcc
      omega

/-- C5 (confirmed): every sample produced by a mixer callback — for any
global volume, channel count, frame request and set of voices — lies in
[-32768, 32767]: the accumulation buffer is clamped before int16
conversion. -/
theorem C5_mixer_clamp_safety (globalVol : ℚ) (nchannels requiredFrames : ℕ)
    (voices : List VoiceS) :
    ∀ y ∈ (mixerCallback globalVol nchannels requiredFrames voices).1,
      -32768 ≤ y ∧ y ≤ 32767 := by
  intro y hy
  rw [mixerCallback] at hy
  simp only [List.mem_map] at hy
  obtain ⟨x, _, rfl⟩ := hy
  exact int16OfClamped_bounds x

/-- Witness for C5: two voices at full volume playing sample 30000 sum to
60000, and the produced output sample 32767 satisfies the bounds. -/
theorem C5_mixer_clamp_safety_witness :
    (mixerCallback 1 1 1 [VoiceS.init [30000] 1 true 0 1,
        VoiceS.init [30000] 1 true 0 1]).1 = [32767] ∧
    (-32768 ≤ (32767 : ℤ) ∧ (32767 : ℤ) ≤ 32767) := by
  have hout : (mixerCallback 1 1 1 [VoiceS.init [30000] 1 true 0 1,
      VoiceS.init [30000] 1 true 0 1]).1 = [32767] := by
    norm_num [mixerCallback, processVoice, voicePull, VoiceS.init,
      int16OfClamped, truncQ, List.zipWith, List.replicate]
  refine ⟨hout, ?_⟩
  have := C5_mixer_clamp_safety 1 1 1 [VoiceS.init [30000] 1 true 0 1,
      VoiceS.init [30000] 1 true 0 1] 32767 (by rw [hout]; simp)
  exact this

/-- Vector lengths are nonnegative. -/
theorem Vec2.length_nonneg (v : Vec2 ℝ) : 0 ≤ v.length :=
  Real.sqrt_nonneg _

/-- Normalizing a vector of nonzero length yields a unit vector. -/
theorem Vec2.normalized_length_one (v : Vec2 ℝ) (h : v.length ≠ 0) :
    v.normalized.length = 1 := by
  have hpos : 0 < v.length := lt_of_le_of_ne (Vec2.length_nonneg v) (Ne.symm h)
  rw [Vec2.normalized, if_neg h]
  have hsum : (v.x / v.length) ^ 2 + (v.y / v.length) ^ 2 =
      (v.x ^ 2 + v.y ^ 2) / v.length ^ 2 := by
    field_simp
  have hlsq : v.x ^ 2 + v.y ^ 2 = v.length ^ 2 := by
    rw [Vec2.length, Real.sq_sqrt (by positivity)]
  rw [Vec2.length]
  simp only
  rw [hsum, hlsq, div_self (pow_ne_zero 2 h), Real.sqrt_one]

/-- A normalized vector is the vector scaled by the inverse length. -/
theorem Vec2.normalized_eq_scale (v : Vec2 ℝ) (h : v.length ≠ 0) :
    v.normalized = v * (1 / v.length) := by
  rw [Vec2.normalized, if_neg h, Vec2.smul_def]
  congr 1 <;> field_simp

/-- C6 (confirmed): circle_vs_circle reports a hit exactly when
0 < distance < combined radius; touching or coincident circles are
non-hits; and on a hit the normal is the unit vector from A toward B,
the depth is combined radius minus distance, and the contact point is
posA + normal * radiusA. -/
theorem C6_circle_vs_circle_spec (pos_a : Vec2 ℝ) (radius_a : ℝ)
    (pos_b : Vec2 ℝ) (radius_b : ℝ) :
    ((circle_vs_circle pos_a radius_a pos_b radius_b).hit = true ↔
      0 < vdist pos_a pos_b ∧ vdist pos_a pos_b < radius_a + radius_b) ∧
    (vdist pos_a pos_b = 0 →
      (circle_vs_circle pos_a radius_a pos_b radius_b).hit = false) ∧
    (vdist pos_a pos_b = radius_a + radius_b →
      (circle_vs_circle pos_a radius_a pos_b radius_b).hit = false) ∧
    (0 < vdist pos_a pos_b → vdist pos_a pos_b < radius_a + radius_b →
      (circle_vs_circle pos_a radius_a pos_b radius_b).normal =
        some ((pos_b - pos_a).normalized) ∧
      ((pos_b - pos_a).normalized).length = 1 ∧
      (pos_b - pos_a).normalized = (pos_b - pos_a) * (1 / vdist pos_a pos_b) ∧
      (circle_vs_circle pos_a radius_a pos_b radius_b).depth =
        (radius_a + radius_b) - vdist pos_a pos_b ∧
      (circle_vs_circle pos_a radius_a pos_b radius_b).point =
        some (pos_a + (pos_b - pos_a).normalized * radius_a)) := by
  have hd0 : 0 ≤ (pos_b - pos_a).length := Vec2.length_nonneg _
  rw [circle_vs_circle, vdist]
  by_cases hcond : (pos_b - pos_a).length ≥ radius_a + radius_b ∨
      (pos_b - pos_a).length = 0
  · rw [if_pos hcond]
    refine ⟨?_, fun _ => rfl, fun _ => rfl, ?_⟩
    · simp only [Bool.false_eq_true, false_iff]
      rintro ⟨h1, h2⟩
      rcases hcond with h | h
      · exact absurd h (not_le.mpr h2)
      · exact absurd h (ne_of_gt h1)
    · intro h1 h2
      exfalso
      rcases hcond with h | h
      · exact absurd h (not_le.mpr h2)
      · exact absurd h (ne_of_gt h1)
  · rw [if_neg hcond]
    push_neg at hcond
    have hne : (pos_b - pos_a).length ≠ 0 := hcond.2
    refine ⟨?_, ?_, ?_, ?_⟩
    · simp only [true_iff]
      exact ⟨lt_of_le_of_ne hd0 (Ne.symm hne), hcond.1⟩
    · intro h; exact absurd h hne
    · intro h; exact absurd h (ne_of_lt hcond.1)
    · intro _ _
      exact ⟨rfl, Vec2.normalized_length_one _ hne,
        Vec2.normalized_eq_scale _ hne, rfl, rfl⟩

/-- Witness for C6: centers (0,0) and (3,4) at distance 5 with radii 3 and
3 collide with depth 1. -/
theorem C6_circle_vs_circle_spec_witness :
    vdist (⟨0, 0⟩ : Vec2 ℝ) ⟨3, 4⟩ = 5 ∧
    (circle_vs_circle (⟨0, 0⟩ : Vec2 ℝ) 3 ⟨3, 4⟩ 3).hit = true ∧
    (circle_vs_circle (⟨0, 0⟩ : Vec2 ℝ) 3 ⟨3, 4⟩ 3).depth = 1 := by
  have h5 : vdist (⟨0, 0⟩ : Vec2 ℝ) ⟨3, 4⟩ = 5 := by
    rw [vdist, Vec2.sub_mk, Vec2.length]
    simp only
    rw [show (3 : ℝ) - 0 = 3 by norm_num, show (4 : ℝ) - 0 = 4 by norm_num]
    rw [show (3 : ℝ) ^ 2 + 4 ^ 2 = 5 ^ 2 by norm_num]
    exact Real.sqrt_sq (by norm_num)
  have h := C6_circle_vs_circle_spec (⟨0, 0⟩ : Vec2 ℝ) 3 ⟨3, 4⟩ 3
  have hhit := h.1.mpr ⟨by rw [h5]; norm_num, by rw [h5]; norm_num⟩
  have hdep := (h.2.2.2 (by rw [h5]; norm_num) (by rw [h5]; norm_num)).2.2.2.1
  exact ⟨h5, hhit, by rw [hdep, h5]; norm_num⟩

/-- The four-way minimum equals its first argument when that is least. -/
theorem min4_eq_first {dl dr dt db : ℝ} (h1 : dl ≤ dr) (h2 : dl ≤ dt)
    (h3 : dl ≤ db) : min (min (min dl dr) dt) db = dl := by
  rw [min_eq_left h1, min_eq_left h2, min_eq_left h3]

/-- The four-way minimum equals the second argument when that is least. -/
theorem min4_eq_second {dl dr dt db : ℝ} (h1 : dr ≤ dl) (h2 : dr ≤ dt)
    (h3 : dr ≤ db) : min (min (min dl dr) dt) db = dr := by
  rw [min_eq_right h1, min_eq_left h2, min_eq_left h3]

/-- The four-way minimum equals the third argument when that is least. -/
theorem min4_eq_third {dl dr dt db : ℝ} (h1 : dt ≤ dl) (h2 : dt ≤ dr)
    (h3 : dt ≤ db) : min (min (min dl dr) dt) db = dt := by
  rw [min_eq_right (le_min h1 h2), min_eq_left h3]

/-- The four-way minimum is below each argument. -/
theorem min4_le {dl dr dt db : ℝ} :
    min (min (min dl dr) dt) db ≤ dl ∧ min (min (min dl dr) dt) db ≤ dr ∧
    min (min (min dl dr) dt) db ≤ dt ∧ min (min (min dl dr) dt) db ≤ db :=
  ⟨le_trans (min_le_left _ _) (le_trans (min_le_left _ _) (min_le_left _ _)),
   le_trans (min_le_left _ _) (le_trans (min_le_left _ _) (min_le_right _ _)),
   le_trans (min_le_left _ _) (min_le_right _ _),
   min_le_right _ _⟩

/-- The four-way minimum differs from the first argument when the first is
not least. -/
theorem min4_ne_first {dl dr dt db : ℝ}
    (h : ¬(dl ≤ dr ∧ dl ≤ dt ∧ dl ≤ db)) :
    min (min (min dl dr) dt) db ≠ dl := by
  rcases not_and_or.mp h with h' | h'
  · exact ne_of_lt (lt_of_le_of_lt min4_le.2.1 (not_le.mp h'))
  · rcases not_and_or.mp h' with h'' | h''
    · exact ne_of_lt (lt_of_le_of_lt min4_le.2.2.1 (not_le.mp h''))
    · exact ne_of_lt (lt_of_le_of_lt min4_le.2.2.2 (not_le.mp h''))

/-- The four-way minimum differs from the second argument when the second is
not least. -/
theorem min4_ne_second {dl dr dt db : ℝ}
    (h : ¬(dr ≤ dl ∧ dr ≤ dt ∧ dr ≤ db)) :
    min (min (min dl dr) dt) db ≠ dr := by
  rcases not_and_or.mp h with h' | h'
  · exact ne_of_lt (lt_of_le_of_lt min4_le.1 (not_le.mp h'))
  · rcases not_and_or.mp h' with h'' | h''
    · exact ne_of_lt (lt_of_le_of_lt min4_le.2.2.1 (not_le.mp h''))
    · exact ne_of_lt (lt_of_le_of_lt min4_le.2.2.2 (not_le.mp h''))

/-- The four-way minimum differs from the third argument when the third is
not least. -/
theorem min4_ne_third {dl dr dt db : ℝ}
    (h : ¬(dt ≤ dl ∧ dt ≤ dr ∧ dt ≤ db)) :
    min (min (min dl dr) dt) db ≠ dt := by
  rcases not_and_or.mp h with h' | h'
  · exact ne_of_lt (lt_of_le_of_lt min4_le.1 (not_le.mp h'))
  · rcases not_and_or.mp h' with h'' | h''
    · exact ne_of_lt (lt_of_le_of_lt min4_le.2.1 (not_le.mp h''))
    · exact ne_of_lt (lt_of_le_of_lt min4_le.2.2.2 (not_le.mp h''))

/-- With the circle center inside the rect, circle_vs_rect reduces to the
four-way edge-distance dispatch (distance is zero, the closest point is the
center itself). -/
theorem circle_vs_rect_inside (circle_pos : Vec2 ℝ) (radius : ℝ)
    (rect_x rect_y rect_w rect_h : ℝ)
    (hx1 : rect_x ≤ circle_pos.x) (hx2 : circle_pos.x ≤ rect_x + rect_w)
    (hy1 : rect_y ≤ circle_pos.y) (hy2 : circle_pos.y ≤ rect_y + rect_h)
    (hr : 0 < radius) :
    circle_vs_rect circle_pos radius rect_x rect_y rect_w rect_h =
      (let dl := circle_pos.x - rect_x
       let dr := (rect_x + rect_w) - circle_pos.x
       let dt := circle_pos.y - rect_y
       let db := (rect_y + rect_h) - circle_pos.y
       let min_p := min (min (min dl dr) dt) db
       if min_p = dl then ⟨true, some ⟨-1, 0⟩, radius + dl, some circle_pos⟩
       else if min_p = dr then ⟨true, some ⟨1, 0⟩, radius + dr, some circle_pos⟩
       else if min_p = dt then ⟨true, some ⟨0, -1⟩, radius + dt, some circle_pos⟩
       else ⟨true, some ⟨0, 1⟩, radius + db, some circle_pos⟩) := by
  rw [circle_vs_rect]
  rw [min_eq_left hx2, max_eq_right hx1, min_eq_left hy2, max_eq_right hy1]
  have hclosest : (⟨circle_pos.x, circle_pos.y⟩ : Vec2 ℝ) = circle_pos := rfl
  rw [hclosest]
  have hdiff : circle_pos - circle_pos = (⟨0, 0⟩ : Vec2 ℝ) := by
    rw [Vec2.sub_def]
    simp
  rw [hdiff]
  have hlen : (⟨0, 0⟩ : Vec2 ℝ).length = 0 := by
    rw [Vec2.length]
    simp
  rw [hlen]
  rw [if_neg (by rw [ge_iff_le]; exact not_le.mpr hr), if_pos rfl]

/-- C7 (confirmed): with the center inside the rectangle, circle_vs_rect
hits and pushes toward the nearest of the four edges, ties broken in
evaluation order left, right, top, bottom (first minimum wins), with depth
radius plus the distance to that edge and the contact point at the
center. -/
theorem C7_circle_vs_rect_center_inside (circle_pos : Vec2 ℝ) (radius : ℝ)
    (rect_x rect_y rect_w rect_h : ℝ)
    (hx1 : rect_x ≤ circle_pos.x) (hx2 : circle_pos.x ≤ rect_x + rect_w)
    (hy1 : rect_y ≤ circle_pos.y) (hy2 : circle_pos.y ≤ rect_y + rect_h)
    (hr : 0 < radius) :
    (circle_vs_rect circle_pos radius rect_x rect_y rect_w rect_h).hit =
      true ∧
    ((circle_pos.x - rect_x ≤ (rect_x + rect_w) - circle_pos.x ∧
      circle_pos.x - rect_x ≤ circle_pos.y - rect_y ∧
      circle_pos.x - rect_x ≤ (rect_y + rect_h) - circle_pos.y) →
      circle_vs_rect circle_pos radius rect_x rect_y rect_w rect_h =
        ⟨true, some ⟨-1, 0⟩, radius + (circle_pos.x - rect_x),
          some circle_pos⟩) ∧
    (¬(circle_pos.x - rect_x ≤ (rect_x + rect_w) - circle_pos.x ∧
       circle_pos.x - rect_x ≤ circle_pos.y - rect_y ∧
       circle_pos.x - rect_x ≤ (rect_y + rect_h) - circle_pos.y) →
     ((rect_x + rect_w) - circle_pos.x ≤ circle_pos.x - rect_x ∧
      (rect_x + rect_w) - circle_pos.x ≤ circle_pos.y - rect_y ∧
      (rect_x + rect_w) - circle_pos.x ≤ (rect_y + rect_h) - circle_pos.y) →
      circle_vs_rect circle_pos radius rect_x rect_y rect_w rect_h =
        ⟨true, some ⟨1, 0⟩, radius + ((rect_x + rect_w) - circle_pos.x),
          some circle_pos⟩) ∧
    (¬(circle_pos.x - rect_x ≤ (rect_x + rect_w) - circle_pos.x ∧
       circle_pos.x - rect_x ≤ circle_pos.y - rect_y ∧
       circle_pos.x - rect_x ≤ (rect_y + rect_h) - circle_pos.y) →
     ¬((rect_x + rect_w) - circle_pos.x ≤ circle_pos.x - rect_x ∧
       (rect_x + rect_w) - circle_pos.x ≤ circle_pos.y - rect_y ∧
       (rect_x + rect_w) - circle_pos.x ≤ (rect_y + rect_h) - circle_pos.y) →
     (circle_pos.y - rect_y ≤ circle_pos.x - rect_x ∧
      circle_pos.y - rect_y ≤ (rect_x + rect_w) - circle_pos.x ∧
      circle_pos.y - rect_y ≤ (rect_y + rect_h) - circle_pos.y) →
      circle_vs_rect circle_pos radius rect_x rect_y rect_w rect_h =
        ⟨true, some ⟨0, -1⟩, radius + (circle_pos.y - rect_y),
          some circle_pos⟩) ∧
    (¬(circle_pos.x - rect_x ≤ (rect_x + rect_w) - circle_pos.x ∧
       circle_pos.x - rect_x ≤ circle_pos.y - rect_y ∧
       circle_pos.x - rect_x ≤ (rect_y + rect_h) - circle_pos.y) →
     ¬((rect_x + rect_w) - circle_pos.x ≤ circle_pos.x - rect_x ∧
       (rect_x + rect_w) - circle_pos.x ≤ circle_pos.y - rect_y ∧
       (rect_x + rect_w) - circle_pos.x ≤ (rect_y + rect_h) - circle_pos.y) →
     ¬(circle_pos.y - rect_y ≤ circle_pos.x - rect_x ∧
       circle_pos.y - rect_y ≤ (rect_x + rect_w) - circle_pos.x ∧
       circle_pos.y - rect_y ≤ (rect_y + rect_h) - circle_pos.y) →
      circle_vs_rect circle_pos radius rect_x rect_y rect_w rect_h =
        ⟨true, some ⟨0, 1⟩, radius + ((rect_y + rect_h) - circle_pos.y),
          some circle_pos⟩) := by
  have key := circle_vs_rect_inside circle_pos radius rect_x rect_y rect_w
    rect_h hx1 hx2 hy1 hy2 hr
  simp only at key
  refine ⟨?_, ?_, ?_, ?_, ?_⟩
  · rw [key]
    split_ifs <;> rfl
  · rintro ⟨h1, h2, h3⟩
    rw [key, if_pos (min4_eq_first h1 h2 h3)]
  · intro hn1 hp
    rw [key, if_neg (min4_ne_first hn1),
      if_pos (min4_eq_second hp.1 hp.2.1 hp.2.2)]
  · intro hn1 hn2 hp
    rw [key, if_neg (min4_ne_first hn1), if_neg (min4_ne_second hn2),
      if_pos (min4_eq_third hp.1 hp.2.1 hp.2.2)]
  · intro hn1 hn2 hn3
    rw [key, if_neg (min4_ne_first hn1), if_neg (min4_ne_second hn2),
      if_neg (min4_ne_third hn3)]

/-- Witness for C7: center (2, 5) in rect (0, 0, 10, 10) is nearest to the
left edge (distance 2); the result pushes left with depth radius + 2. -/
theorem C7_circle_vs_rect_center_inside_witness :
    circle_vs_rect (⟨2, 5⟩ : Vec2 ℝ) 3 0 0 10 10 =
      ⟨true, some ⟨-1, 0⟩, 3 + 2, some ⟨2, 5⟩⟩ := by
  have h := (C7_circle_vs_rect_center_inside (⟨2, 5⟩ : Vec2 ℝ) 3 0 0 10 10
    (by norm_num) (by norm_num) (by norm_num) (by norm_num) (by norm_num)).2.1
    (by norm_num)
  rw [h]
  norm_num


/-- Boss.update on a frozen, living boss only ticks the freeze timer down
and returns 0, leaving everything else (boss fields and player) as is. -/
theorem bossUpdate_frozen (s : BossS) (dt : ℝ) (p : PlayerS) (o : BossRand)
    (hdead : s.is_dead = false) (hfr : 0 < s.freeze_timer) :
    Boss.update s dt p o =
      ({ s with freeze_timer := s.freeze_timer - dt }, p, 0) := by
  rw [Boss.update]
  rw [if_neg (by rw [hdead]; exact Bool.false_ne_true), if_pos hfr]

/-- C10 (confirmed): while frozen and not dead, Boss.update returns 0 and
leaves hp, rage, rage_boost, the attack list and the noise-ray list (and
the player) unchanged; only freeze_timer decreases by dt.  In particular a
dashing player within striking distance deals no damage during the freeze:
hp is untouched and the hit flag is 0. -/
theorem C10_frozen_update_inert (s : BossS) (dt : ℝ) (p : PlayerS)
    (o : BossRand) (hdead : s.is_dead = false) (hfr : 0 < s.freeze_timer) :
    (Boss.update s dt p o).1.hp = s.hp ∧
    (Boss.update s dt p o).1.rage = s.rage ∧
    (Boss.update s dt p o).1.rage_boost = s.rage_boost ∧
    (Boss.update s dt p o).1.attacks = s.attacks ∧
    (Boss.update s dt p o).1.noise_rays = s.noise_rays ∧
    (Boss.update s dt p o).1.freeze_timer = s.freeze_timer - dt ∧
    (Boss.update s dt p o).2.1 = p ∧
    (Boss.update s dt p o).2.2 = 0 := by
  rw [bossUpdate_frozen s dt p o hdead hfr]
  exact ⟨rfl, rfl, rfl, rfl, rfl, rfl, rfl, rfl⟩

/-- Witness for C10: a frozen boss with one in-flight attack and a dashing
player 10 units away (well inside r + 25 = 85) takes no damage and reports
no hit; only the freeze timer moves. -/
theorem C10_frozen_update_inert_witness :
    exBoss.is_dead = false ∧ 0 < exBoss.freeze_timer ∧
    exPlayer.is_dashing = true ∧
    (Boss.update exBoss (1 / 10) exPlayer exRand).1.hp = exBoss.hp ∧
    (Boss.update exBoss (1 / 10) exPlayer exRand).1.freeze_timer =
      exBoss.freeze_timer - 1 / 10 ∧
    (Boss.update exBoss (1 / 10) exPlayer exRand).2.2 = 0 := by
  have hfr : 0 < exBoss.freeze_timer := by
    rw [show exBoss.freeze_timer = 1 from rfl]; norm_num
  have h := C10_frozen_update_inert exBoss (1 / 10) exPlayer exRand rfl hfr
  exact ⟨rfl, hfr, rfl, h.1, h.2.2.2.2.2.1, h.2.2.2.2.2.2.2⟩

/-- C1 (corrected): while frozen and not dead, Boss.update suspends attack
scheduling, boss movement, and also the position integration of in-flight
attacks — the attack list, including every attack's position, is returned
unchanged.  (As originally stated — frozen updates still advancing attack
positions by velocity times dt — the claim is false: see the
counterexample.) -/
theorem C1_frozen_suspends_attack_integration (s : BossS) (dt : ℝ)
    (p : PlayerS) (o : BossRand) (hdead : s.is_dead = false)
    (hfr : 0 < s.freeze_timer) :
    (Boss.update s dt p o).1.attacks = s.attacks ∧
    (Boss.update s dt p o).1.attacks.map Atk.pos = s.attacks.map Atk.pos := by
  rw [bossUpdate_frozen s dt p o hdead hfr]
  exact ⟨rfl, rfl⟩

/-- Witness for C1 (amended form): the frozen example boss keeps its single
attack, position included, across an update. -/
theorem C1_frozen_suspends_attack_integration_witness :
    exBoss.is_dead = false ∧ 0 < exBoss.freeze_timer ∧
    (Boss.update exBoss (1 / 10) exPlayer exRand).1.attacks =
      exBoss.attacks := by
  have hfr : 0 < exBoss.freeze_timer := by
    rw [show exBoss.freeze_timer = 1 from rfl]; norm_num
  exact ⟨rfl, hfr,
    (C1_frozen_suspends_attack_integration exBoss (1 / 10) exPlayer
      exRand rfl hfr).1⟩

/-- Counterexample for C1 as stated: a frozen boss (freeze_timer 1, alive)
with a non-empty attack list — one attack at (0,0) with velocity (100,0) —
updated with dt = 1/10 leaves the attack at (0,0); the claim demands it
advance to (0,0) + (100,0)*(1/10) = (10,0). -/
theorem C1_frozen_suspends_attack_integration_cex :
    0 < exBoss.freeze_timer ∧ exBoss.is_dead = false ∧
    exBoss.attacks.map Atk.pos = [⟨0, 0⟩] ∧
    (Boss.update exBoss (1 / 10) exPlayer exRand).1.attacks.map Atk.pos =
      [⟨0, 0⟩] ∧
    exAtk.pos + exAtk.vel * ((1 : ℝ) / 10) = ⟨10, 0⟩ ∧
    ((⟨0, 0⟩ : Vec2 ℝ)) ≠ ⟨10, 0⟩ := by
  have hfr : 0 < exBoss.freeze_timer := by
    rw [show exBoss.freeze_timer = 1 from rfl]; norm_num
  have h := bossUpdate_frozen exBoss (1 / 10) exPlayer exRand rfl hfr
  refine ⟨hfr, rfl, rfl, ?_, ?_, ?_⟩
  · rw [h]
    rfl
  · rw [show exAtk.pos = (⟨0, 0⟩ : Vec2 ℝ) from rfl,
      show exAtk.vel = (⟨100, 0⟩ : Vec2 ℝ) from rfl, Vec2.smul_mk,
      Vec2.add_mk]
    norm_num
  · intro hcontra
    have : (0 : ℝ) = 10 := congrArg Vec2.x hcontra
    norm_num at this

/-- First platform hit: an attack with a clear one-shot flag and no marker,
inside some platform of the list, penetrates — flag set, velocity halved,
position kept, marker set to a containing platform's id. -/
theorem atkPlatformStep_first_hit (atk : Atk) (ps : List Plat)
    (hpen : atk.penetrated = false) (hmark : atk.penetrating_p = none)
    (hin : ∃ p ∈ ps, p.contains atk.pos) :
    ∃ newAtk, atkPlatformStep atk ps = some newAtk ∧
      newAtk.penetrated = true ∧ newAtk.vel = atk.vel * (0.5 : ℝ) ∧
      newAtk.pos = atk.pos ∧
      ∃ p ∈ ps, p.contains atk.pos ∧ newAtk.penetrating_p = some p.pid := by
  induction ps with
  | nil =>
    obtain ⟨p, hp, _⟩ := hin
    exact absurd hp (List.not_mem_nil p)
  | cons q rest ih =>
    by_cases hq : q.contains atk.pos
    · have hstep : atkPlatformStep atk (q :: rest) =
          some { atk with penetrated := true, penetrating_p := some q.pid,
                          vel := atk.vel * (0.5 : ℝ) } := by
        rw [atkPlatformStep, if_pos hq,
          if_neg (by rw [hmark]; exact fun hc => Option.noConfusion hc),
          if_pos hpen]
      exact ⟨_, hstep, rfl, rfl, rfl, q, by simp, hq, rfl⟩
    · obtain ⟨p, hp, hpin⟩ := hin
      have hprest : p ∈ rest := by
        rcases List.mem_cons.mp hp with h | h
        · exact absurd (h ▸ hpin) hq
        · exact h
      obtain ⟨newAtk, hstep, h1, h2, h3, p', hp', hin', hmark'⟩ :=
        ih ⟨p, hprest, hpin⟩
      refine ⟨newAtk, ?_, h1, h2, h3,
        ⟨p', List.mem_cons_of_mem q hp', hin', hmark'⟩⟩
      rw [atkPlatformStep, if_neg hq,
        if_neg (by rw [hmark]; exact fun hc => Option.noConfusion hc)]
      exact hstep

/-- Second platform hit: an attack that has already penetrated explodes
(is removed) as soon as it is inside a platform other than the one its
marker records. -/
theorem atkPlatformStep_second_hit (atk : Atk) (ps : List Plat)
    (hpen : atk.penetrated = true)
    (hin : ∃ p ∈ ps, p.contains atk.pos ∧ atk.penetrating_p ≠ some p.pid) :
    atkPlatformStep atk ps = none := by
  induction ps generalizing atk with
  | nil => obtain ⟨p, hp, _⟩ := hin; exact absurd hp (List.not_mem_nil p)
  | cons q rest ih =>
    obtain ⟨p, hp, hpin, hpne⟩ := hin
    by_cases hq : q.contains atk.pos
    · by_cases hmq : atk.penetrating_p = some q.pid
      · have hprest : p ∈ rest := by
          rcases List.mem_cons.mp hp with h | h
          · exact absurd (h ▸ hmq) (h ▸ hpne)
          · exact h
        rw [atkPlatformStep, if_pos hq, if_pos hmq]
        exact ih atk hpen ⟨p, hprest, hpin, hpne⟩
      · rw [atkPlatformStep, if_pos hq, if_neg hmq,
          if_neg (by rw [hpen]; exact fun hc => Bool.noConfusion hc)]
    · have hprest : p ∈ rest := by
        rcases List.mem_cons.mp hp with h | h
        · exact absurd (h ▸ hpin) hq
        · exact h
      by_cases hmq : atk.penetrating_p = some q.pid
      · rw [atkPlatformStep, if_neg hq, if_pos hmq]
        exact ih _ hpen ⟨p, hprest, hpin,
          fun hc => Option.noConfusion hc⟩
      · rw [atkPlatformStep, if_neg hq, if_neg hmq]
        exact ih atk hpen ⟨p, hprest, hpin, hpne⟩

/-- Straddling the penetrated platform: as long as every platform of the
list that contains the attack position carries the marker id, and every
platform carrying the marker id contains the position, the attack survives
the whole pass completely unchanged. -/
theorem atkPlatformStep_straddle (atk : Atk) (ps : List Plat) (k : ℕ)
    (hmark : atk.penetrating_p = some k)
    (h1 : ∀ p ∈ ps, p.contains atk.pos → p.pid = k)
    (h2 : ∀ p ∈ ps, p.pid = k → p.contains atk.pos) :
    atkPlatformStep atk ps = some atk := by
  induction ps with
  | nil => rw [atkPlatformStep]
  | cons q rest ih =>
    by_cases hq : q.contains atk.pos
    · have hqk : q.pid = k := h1 q (by simp) hq
      rw [atkPlatformStep, if_pos hq, if_pos (by rw [hmark, hqk])]
      exact ih (fun p hp => h1 p (List.mem_cons_of_mem q hp))
        (fun p hp => h2 p (List.mem_cons_of_mem q hp))
    · have hqk : q.pid ≠ k := fun hc => hq (h2 q (by simp) hc)
      rw [atkPlatformStep, if_neg hq,
        if_neg (by rw [hmark]
                   exact fun hc => hqk (Option.some.inj hc).symm)]
      exact ih (fun p hp => h1 p (List.mem_cons_of_mem q hp))
        (fun p hp => h2 p (List.mem_cons_of_mem q hp))

/-- C3 (confirmed): a boss projectile passes through exactly one platform —
first containment with a clear flag sets penetrated and halves the
velocity; containment in a second, distinct platform while penetrated
removes the projectile; and while it stays inside (exactly) the platform it
is currently penetrating neither effect triggers again. -/
theorem C3_arrow_penetration :
    (∀ (atk : Atk) (ps : List Plat), atk.penetrated = false →
      atk.penetrating_p = none → (∃ p ∈ ps, p.contains atk.pos) →
      ∃ newAtk, atkPlatformStep atk ps = some newAtk ∧
        newAtk.penetrated = true ∧ newAtk.vel = atk.vel * (0.5 : ℝ) ∧
        newAtk.pos = atk.pos ∧
        ∃ p ∈ ps, p.contains atk.pos ∧ newAtk.penetrating_p = some p.pid) ∧
    (∀ (atk : Atk) (ps : List Plat), atk.penetrated = true →
      (∃ p ∈ ps, p.contains atk.pos ∧ atk.penetrating_p ≠ some p.pid) →
      atkPlatformStep atk ps = none) ∧
    (∀ (atk : Atk) (ps : List Plat) (k : ℕ), atk.penetrating_p = some k →
      (∀ p ∈ ps, p.contains atk.pos → p.pid = k) →
      (∀ p ∈ ps, p.pid = k → p.contains atk.pos) →
      atkPlatformStep atk ps = some atk) :=
  ⟨atkPlatformStep_first_hit, atkPlatformStep_second_hit,
    atkPlatformStep_straddle⟩

/-- Witness for C3, on the spec's arrow scenario: (i) the fresh arrow with
velocity (500,0) inside the first platform penetrates and ends with
velocity (250,0); (ii) the penetrated arrow inside the distinct second
platform explodes; (iii) inside only the marked platform it is unchanged. -/
theorem C3_arrow_penetration_witness :
    (∃ newAtk, atkPlatformStep exArrow [exPlatA] = some newAtk ∧
      newAtk.penetrated = true ∧ newAtk.vel = ⟨250, 0⟩) ∧
    atkPlatformStep exArrowPen [exPlatA, exPlatB] = none ∧
    atkPlatformStep exArrowPen [exPlatA] = some exArrowPen := by
  have hinA : exPlatA.contains exArrow.pos := by
    rw [Plat.contains]
    refine ⟨?_, ?_, ?_, ?_⟩ <;> norm_num [exPlatA, exArrow]
  have hinB : exPlatB.contains exArrowPen.pos := by
    rw [Plat.contains]
    refine ⟨?_, ?_, ?_, ?_⟩ <;> norm_num [exPlatB, exArrowPen]
  have hinA2 : exPlatA.contains exArrowPen.pos := by
    rw [Plat.contains]
    refine ⟨?_, ?_, ?_, ?_⟩ <;> norm_num [exPlatA, exArrowPen]
  refine ⟨?_, ?_, ?_⟩
  · obtain ⟨newAtk, hstep, hp, hv, _, _⟩ :=
      C3_arrow_penetration.1 exArrow [exPlatA] rfl rfl ⟨exPlatA, by simp, hinA⟩
    refine ⟨newAtk, hstep, hp, ?_⟩
    rw [hv, show exArrow.vel = (⟨500, 0⟩ : Vec2 ℝ) from rfl, Vec2.smul_mk]
    norm_num
  · exact C3_arrow_penetration.2.1 exArrowPen [exPlatA, exPlatB] rfl
      ⟨exPlatB, by simp, hinB, by
        rw [show exArrowPen.penetrating_p = some 0 from rfl,
          show exPlatB.pid = 1 from rfl]
        simp⟩
  · refine C3_arrow_penetration.2.2 exArrowPen [exPlatA] 0 rfl ?_ ?_
    · intro p hp _
      rw [List.mem_singleton.mp hp]
      rfl
    · intro p hp _
      rw [List.mem_singleton.mp hp]
      exact hinA2
